import Mathlib

/-!
Verification of the request-id extraction rule of the
`request-id-middleware` library.

The source (`src/lib.rs`) implements an Axum extractor: it reads the
first `X-Request-Id` header value; if absent it synthesizes a fresh
UUID v7; if present it decodes the value to text, trims it, lower-cases
it, parses it as a UUID and accepts it exactly when the version nibble
is 7, echoing back the normalized string.

Strings are modelled as lists of bytes (`List Nat`, each entry a byte
value). Fallible operations return `Option`; the two `.unwrap()` calls
of the source are modelled with an explicit `Outcome.panicked` result.
-/

namespace RequestIdMiddleware

/-- Byte list of an ASCII string literal. -/
def strBytes (s : String) : List Nat := s.data.map Char.toNat

/-- Visible-ASCII test of the HTTP layer's `HeaderValue::to_str`: a byte
decodes iff it is in the range `32..126` or is a tab (9). -/
def isVisibleAscii (b : Nat) : Bool := (decide (32 ≤ b) && decide (b < 127)) || b == 9

/-- ASCII whitespace recognised by the trimming step (`char::is_whitespace`
restricted to the byte range that can appear in a decoded header value). -/
def isWhitespaceByte (b : Nat) : Bool :=
  b == 9 || b == 10 || b == 11 || b == 12 || b == 13 || b == 32

/-- Lower-casing of a single byte: ASCII capital letters are shifted by 32. -/
def toLowerByte (b : Nat) : Nat := if 65 ≤ b ∧ b ≤ 90 then b + 32 else b

/-- Model of `str::to_lowercase` on ASCII text. -/
def toLowercase (s : List Nat) : List Nat := s.map toLowerByte

/-- Model of `str::trim`: drop whitespace from both ends. -/
def trim (s : List Nat) : List Nat :=
  (s.dropWhile isWhitespaceByte).rdropWhile isWhitespaceByte

/-- Normalization pipeline of the source: `.trim().to_lowercase()`. -/
def normalize (s : List Nat) : List Nat := toLowercase (trim s)

/-- Value of a single hex digit byte, as in the uuid crate's `HEX_TABLE`. -/
def hexVal (b : Nat) : Option Nat :=
  if 48 ≤ b ∧ b ≤ 57 then some (b - 48)
  else if 97 ≤ b ∧ b ≤ 102 then some (b - 87)
  else if 65 ≤ b ∧ b ≤ 70 then some (b - 55)
  else none

/-- Parse an even-length run of hex digit bytes into data bytes. -/
def parseHexBytes : List Nat → Option (List Nat)
  | [] => some []
  | [_] => none
  | h :: l :: rest =>
    match hexVal h, hexVal l, parseHexBytes rest with
    | some hi, some lo, some tail => some ((hi * 16 + lo) :: tail)
    | _, _, _ => none

/-- Bytes of the literal `urn:uuid:`. -/
def URN_UUID : List Nat := [117, 114, 110, 58, 117, 117, 105, 100, 58]

/-- Model of the uuid crate's `parse_hyphenated`: 36 bytes, hyphens at
positions 8, 13, 18 and 23, hex digits everywhere else. -/
def parseHyphenated (s : List Nat) : Option (List Nat) :=
  if s.length == 36 && (s.getD 8 0 == 45) && (s.getD 13 0 == 45)
      && (s.getD 18 0 == 45) && (s.getD 23 0 == 45) then
    parseHexBytes (s.take 8 ++ (s.drop 9).take 4 ++ (s.drop 14).take 4
      ++ (s.drop 19).take 4 ++ s.drop 24)
  else none

/-- Model of `Uuid::try_parse`: simple (32 bytes), hyphenated (36),
braced hyphenated (38) or `urn:uuid:`-prefixed hyphenated (45). -/
def uuidTryParse (s : List Nat) : Option (List Nat) :=
  if s.length == 32 then parseHexBytes s
  else if s.length == 36 then parseHyphenated s
  else if s.length == 38 && (s.getD 0 0 == 123) && (s.getD 37 0 == 125) then
    parseHyphenated ((s.drop 1).take 36)
  else if s.length == 45 && decide (s.take 9 = URN_UUID) then parseHyphenated (s.drop 9)
  else none

/-- Model of `Uuid::get_version_num`: high nibble of byte 6. -/
def getVersionNum (bytes : List Nat) : Nat := bytes.getD 6 0 / 16

/-- The version enum of the uuid crate. -/
inductive UuidVersion where
  | Nil | Mac | Dce | Md5 | Random | Sha1 | SortMac | SortRand | Custom | Max
  deriving DecidableEq

/-- Model of `Uuid::is_nil`: all bytes zero. -/
def isNilUuid (bytes : List Nat) : Bool := bytes.all (· == 0)

/-- Model of `Uuid::is_max`: all bytes 255. -/
def isMaxUuid (bytes : List Nat) : Bool := bytes.all (· == 255)

/-- Model of `Uuid::get_version`: `None` for unrecognised version numbers. -/
def getVersion (bytes : List Nat) : Option UuidVersion :=
  match getVersionNum bytes with
  | 0 => if isNilUuid bytes then some UuidVersion.Nil else none
  | 1 => some UuidVersion.Mac
  | 2 => some UuidVersion.Dce
  | 3 => some UuidVersion.Md5
  | 4 => some UuidVersion.Random
  | 5 => some UuidVersion.Sha1
  | 6 => some UuidVersion.SortMac
  | 7 => some UuidVersion.SortRand
  | 8 => some UuidVersion.Custom
  | 15 => if isMaxUuid bytes then some UuidVersion.Max else none
  | _ => none

/-- Model of `Uuid::now_v7`: 48-bit millisecond timestamp big-endian in
bytes 0-5, ten random filler bytes, with the version nibble of byte 6
forced to 7 and the variant bits of byte 8 forced to `10`. -/
def nowV7 (millis : Nat) (rand : Fin 10 → Nat) : List Nat :=
  [millis / 2 ^ 40 % 256, millis / 2 ^ 32 % 256, millis / 2 ^ 24 % 256,
   millis / 2 ^ 16 % 256, millis / 2 ^ 8 % 256, millis % 256,
   rand 0 % 256 % 16 + 112, rand 1 % 256,
   rand 2 % 256 % 64 + 128, rand 3 % 256, rand 4 % 256, rand 5 % 256,
   rand 6 % 256, rand 7 % 256, rand 8 % 256, rand 9 % 256]

/-- Lower-case hex digit byte of a nibble. -/
def hexDigitChar (n : Nat) : Nat := if n < 10 then 48 + n else 87 + n

/-- Two lower-case hex digit bytes of a data byte. -/
def byteToHex (b : Nat) : List Nat := [hexDigitChar (b / 16), hexDigitChar (b % 16)]

def bytesToHex (bs : List Nat) : List Nat := bs.flatMap byteToHex

/-- Model of `Uuid::to_string`: hyphenated lower-case hex form. -/
def uuidToString (bytes : List Nat) : List Nat :=
  bytesToHex (bytes.take 4) ++ 45 :: (bytesToHex ((bytes.drop 4).take 2)
    ++ 45 :: (bytesToHex ((bytes.drop 6).take 2)
    ++ 45 :: (bytesToHex ((bytes.drop 8).take 2)
    ++ 45 :: bytesToHex (bytes.drop 10))))

/-- Canonical name of the header, `HEADER_X_REQUEST_ID` in the source. -/
def HEADER_X_REQUEST_ID : List Nat := strBytes "X-Request-Id"

/-- Message of the parse-failure rejection. -/
def MSG_NOT_A_UUID : List Nat :=
  strBytes "Invalid " ++ HEADER_X_REQUEST_ID ++ strBytes " : Not a valid UUID"

/-- Message of the version-failure rejection. -/
def MSG_NOT_AN_UUID_V7 : List Nat :=
  strBytes "Invalid " ++ HEADER_X_REQUEST_ID ++ strBytes " : Not an UUID v7"

/-- Result of one run of the extractor. `ok` carries the string stored in
`ExtractRequestId`; `rejected` carries the status code and message of the
`Rejection`; `panicked` marks a run that hits one of the two `.unwrap()`
calls on a failing value. -/
inductive Outcome where
  | ok (id : List Nat)
  | rejected (status : Nat) (msg : List Nat)
  | panicked
  deriving DecidableEq

/-- Model of `ExtractRequestId::from_request_parts`, as a function of the
looked-up header value and of the time/randomness consumed by
`Uuid::now_v7`. -/
def fromRequestParts (header : Option (List Nat)) (millis : Nat)
    (rand : Fin 10 → Nat) : Outcome :=
  match header with
  | some raw =>
    if raw.all isVisibleAscii then
      let request_id := normalize raw
      match uuidTryParse request_id with
      | none => Outcome.rejected 400 MSG_NOT_A_UUID
      | some parsed =>
        match getVersion parsed with
        | none => Outcome.panicked
        | some v =>
          if v = UuidVersion.SortRand then Outcome.ok request_id
          else Outcome.rejected 400 MSG_NOT_AN_UUID_V7
    else Outcome.panicked
  | none => Outcome.ok (uuidToString (nowV7 millis rand))

/-- Case-insensitive header-name match of the `HeaderMap` lookup. -/
def headerNameMatches (name target : List Nat) : Bool :=
  decide (name.map toLowerByte = target.map toLowerByte)

/-- Model of `HeaderMap::get`: first value whose name matches. -/
def headersGet (hs : List (List Nat × List Nat)) (target : List Nat) :
    Option (List Nat) :=
  (hs.find? fun p => headerNameMatches p.1 target).map Prod.snd

/-- The whole extractor: header lookup followed by `fromRequestParts`. -/
def extractRequestId (hs : List (List Nat × List Nat)) (millis : Nat)
    (rand : Fin 10 → Nat) : Outcome :=
  fromRequestParts (headersGet hs HEADER_X_REQUEST_ID) millis rand

/-! ### Helper lemmas -/

theorem hexVal_hexDigitChar : ∀ n : Nat, n < 16 → hexVal (hexDigitChar n) = some n := by
  decide

theorem parseHexBytes_append (b : Nat) (rest : List Nat) (hb : b < 256) :
    parseHexBytes (byteToHex b ++ rest) = (parseHexBytes rest).map (fun t => b :: t) := by
  have h1 : hexVal (hexDigitChar (b / 16)) = some (b / 16) :=
    hexVal_hexDigitChar _ (by omega)
  have h2 : hexVal (hexDigitChar (b % 16)) = some (b % 16) :=
    hexVal_hexDigitChar _ (by omega)
  have hb' : b / 16 * 16 + b % 16 = b := by omega
  show parseHexBytes (hexDigitChar (b / 16) :: hexDigitChar (b % 16) :: rest) = _
  cases hp : parseHexBytes rest <;> simp [parseHexBytes, h1, h2, hp, hb']

theorem parseHexBytes_bytesToHex (bs : List Nat) (h : ∀ b ∈ bs, b < 256) :
    parseHexBytes (bytesToHex bs) = some bs := by
  induction bs with
  | nil => rfl
  | cons b t ih =>
    rw [show bytesToHex (b :: t) = byteToHex b ++ bytesToHex t from rfl,
      parseHexBytes_append b _ (h b (by simp)),
      ih (fun x hx => h x (by simp [hx]))]
    rfl

theorem nowV7_bytes_lt (m : Nat) (r : Fin 10 → Nat) : ∀ b ∈ nowV7 m r, b < 256 := by
  intro b hb
  simp only [nowV7, List.mem_cons, List.not_mem_nil, or_false] at hb
  rcases hb with rfl | rfl | rfl | rfl | rfl | rfl | rfl | rfl | rfl | rfl | rfl | rfl
    | rfl | rfl | rfl | rfl <;> omega

theorem nowV7_roundtrip (m : Nat) (r : Fin 10 → Nat) :
    uuidTryParse (uuidToString (nowV7 m r)) = some (nowV7 m r) := by
  have e : uuidTryParse (uuidToString (nowV7 m r))
      = parseHexBytes (bytesToHex (nowV7 m r)) := rfl
  rw [e]
  exact parseHexBytes_bytesToHex _ (nowV7_bytes_lt m r)

theorem nowV7_versionNum (m : Nat) (r : Fin 10 → Nat) :
    getVersionNum (nowV7 m r) = 7 := by
  show (r 0 % 256 % 16 + 112) / 16 = 7
  omega

theorem getVersion_of_versionNum_seven (bytes : List Nat)
    (h : getVersionNum bytes = 7) : getVersion bytes = some UuidVersion.SortRand := by
  unfold getVersion
  rw [h]

theorem versionNum_of_getVersion_SortRand (bytes : List Nat)
    (h : getVersion bytes = some UuidVersion.SortRand) : getVersionNum bytes = 7 := by
  unfold getVersion at h
  split at h <;> first
    | (rename_i heq; simp only [Option.some.injEq] at h; first | exact heq | cases h)
    | (split at h <;> simp_all)
    | simp_all

theorem fromRequestParts_echo (raw parsed : List Nat) (m : Nat) (r : Fin 10 → Nat)
    (hdec : raw.all isVisibleAscii = true)
    (hparse : uuidTryParse (normalize raw) = some parsed)
    (hver : getVersionNum parsed = 7) :
    fromRequestParts (some raw) m r = Outcome.ok (normalize raw) := by
  have hv : getVersion parsed = some UuidVersion.SortRand :=
    getVersion_of_versionNum_seven _ hver
  simp [fromRequestParts, hdec, hparse, hv]

/-! ### Claims -/

/-- Claim C1: for every present `X-Request-Id` header value whose trimmed,
lower-cased form is a syntactically valid UUID with version 7, resolution
succeeds and the returned string is exactly that trimmed, lower-cased form,
byte for byte — not the UUID library's canonical re-serialization. -/
theorem claim_C1_present_valid_v7_echoes_normalized (raw parsed : List Nat)
    (m : Nat) (r : Fin 10 → Nat)
    (hdec : raw.all isVisibleAscii = true)
    (hparse : uuidTryParse (normalize raw) = some parsed)
    (hver : getVersionNum parsed = 7) :
    fromRequestParts (some raw) m r = Outcome.ok (normalize raw) :=
  fromRequestParts_echo raw parsed m r hdec hparse hver

/-- Witness for C1, at a simple-format (hyphen-free) upper-case header value
with surrounding blanks: the result is the trimmed lower-cased input itself,
which differs from the canonical hyphenated re-serialization. -/
theorem claim_C1_witness :
    ((strBytes " 01965864F8AB7EB8912AA2C999AB110E ").all isVisibleAscii = true ∧
      uuidTryParse (normalize (strBytes " 01965864F8AB7EB8912AA2C999AB110E "))
        = some [1, 150, 88, 100, 248, 171, 126, 184, 145, 42, 162, 201, 153, 171, 17, 14] ∧
      getVersionNum [1, 150, 88, 100, 248, 171, 126, 184, 145, 42, 162, 201, 153, 171, 17, 14] = 7) ∧
    fromRequestParts (some (strBytes " 01965864F8AB7EB8912AA2C999AB110E ")) 0 (fun _ => 0)
      = Outcome.ok (strBytes "01965864f8ab7eb8912aa2c999ab110e") ∧
    strBytes "01965864f8ab7eb8912aa2c999ab110e"
      ≠ uuidToString [1, 150, 88, 100, 248, 171, 126, 184, 145, 42, 162, 201, 153, 171, 17, 14] := by
  refine ⟨⟨by decide, by decide, by decide⟩, ?_, by decide⟩
  have h := claim_C1_present_valid_v7_echoes_normalized
    (strBytes " 01965864F8AB7EB8912AA2C999AB110E ")
    [1, 150, 88, 100, 248, 171, 126, 184, 145, 42, 162, 201, 153, 171, 17, 14]
    0 (fun _ => 0) (by decide) (by decide) (by decide)
  rw [h]
  decide

/-- Claim C2: when the `X-Request-Id` header is absent, resolution always
succeeds and the returned identifier is a freshly synthesized UUID whose
version field equals 7, whatever the timestamp and random bytes are. -/
theorem claim_C2_absent_header_synthesizes_v7 (m : Nat) (r : Fin 10 → Nat) :
    fromRequestParts none m r = Outcome.ok (uuidToString (nowV7 m r)) ∧
    uuidTryParse (uuidToString (nowV7 m r)) = some (nowV7 m r) ∧
    getVersionNum (nowV7 m r) = 7 :=
  ⟨rfl, nowV7_roundtrip m r, nowV7_versionNum m r⟩

/-- Claim C3 fails on the code: a syntactically valid UUID whose version
nibble is 9 is parsed successfully, but the uuid library's `get_version`
returns `None` for version numbers outside `{0, 1, ..., 8, 15}`, so the
source's `get_version().unwrap()` panics instead of producing the
WRONG_VERSION rejection. This theorem evaluates the model at such a header. -/
theorem claim_C3_version_nine_panics :
    uuidTryParse (normalize (strBytes "01965864-f8ab-9eb8-912a-a2c999ab110e"))
      = some [1, 150, 88, 100, 248, 171, 158, 184, 145, 42, 162, 201, 153, 171, 17, 14] ∧
    getVersionNum [1, 150, 88, 100, 248, 171, 158, 184, 145, 42, 162, 201, 153, 171, 17, 14] = 9 ∧
    fromRequestParts (some (strBytes "01965864-f8ab-9eb8-912a-a2c999ab110e")) 0 (fun _ => 0)
      = Outcome.panicked := by
  decide

/-- Claim C4: every present header value that decodes to text but whose
trimmed, lower-cased form is not parseable as any UUID is rejected with
status 400 and the message `Invalid X-Request-Id : Not a valid UUID`. -/
theorem claim_C4_unparseable_rejected (raw : List Nat) (m : Nat) (r : Fin 10 → Nat)
    (hdec : raw.all isVisibleAscii = true)
    (hparse : uuidTryParse (normalize raw) = none) :
    fromRequestParts (some raw) m r
      = Outcome.rejected 400 (strBytes "Invalid X-Request-Id : Not a valid UUID") := by
  simp only [fromRequestParts, hdec, if_true, hparse]
  decide

/-- Witness for C4, at the repository's own test vector. -/
theorem claim_C4_witness :
    ((strBytes "this-is-not-a-uuid").all isVisibleAscii = true ∧
      uuidTryParse (normalize (strBytes "this-is-not-a-uuid")) = none) ∧
    fromRequestParts (some (strBytes "this-is-not-a-uuid")) 0 (fun _ => 0)
      = Outcome.rejected 400 (strBytes "Invalid X-Request-Id : Not a valid UUID") :=
  ⟨⟨by decide, by decide⟩,
    claim_C4_unparseable_rejected (strBytes "this-is-not-a-uuid") 0 (fun _ => 0)
      (by decide) (by decide)⟩

/-- Claim C5 fails on the code: the resolver can panic. The header value
consisting of the single byte 255 is legal at the HTTP layer but is not
visible ASCII, so `to_str().unwrap()` panics; and a valid UUID with the
unrecognised version nibble 9 makes `get_version().unwrap()` panic. -/
theorem claim_C5_resolver_can_panic :
    fromRequestParts (some [255]) 0 (fun _ => 0) = Outcome.panicked ∧
    fromRequestParts (some (strBytes "00000000-0000-9000-8000-000000000000")) 0 (fun _ => 0)
      = Outcome.panicked := by
  decide

/-- Claim C6 fails on the code: a header value that does not decode as
visible-ASCII text (here the single byte 196, which is also invalid UTF-8
on its own) makes `to_str().unwrap()` panic instead of being treated like
the NOT_A_UUID case. -/
theorem claim_C6_undecodable_header_panics :
    [196].all isVisibleAscii = false ∧
    fromRequestParts (some [196]) 0 (fun _ => 0) = Outcome.panicked ∧
    fromRequestParts (some [196]) 0 (fun _ => 0)
      ≠ Outcome.rejected 400 (strBytes "Invalid X-Request-Id : Not a valid UUID") := by
  decide

/-- Claim C7: every string ever returned on a success path — echoed from a
present header or synthesized for an absent one — is syntactically a UUID
whose version nibble equals 7. -/
theorem claim_C7_every_ok_is_uuid_v7 (header : Option (List Nat)) (m : Nat)
    (r : Fin 10 → Nat) (id : List Nat)
    (hok : fromRequestParts header m r = Outcome.ok id) :
    ∃ bytes, uuidTryParse id = some bytes ∧ getVersionNum bytes = 7 := by
  cases header with
  | none =>
    simp only [fromRequestParts, Outcome.ok.injEq] at hok
    subst hok
    exact ⟨nowV7 m r, nowV7_roundtrip m r, nowV7_versionNum m r⟩
  | some raw =>
    simp only [fromRequestParts] at hok
    split at hok
    · split at hok
      · simp at hok
      · rename_i parsed hparse
        split at hok
        · simp at hok
        · rename_i v hv
          split at hok
          · rename_i hveq
            subst hveq
            simp only [Outcome.ok.injEq] at hok
            subst hok
            exact ⟨parsed, hparse, versionNum_of_getVersion_SortRand _ hv⟩
          · simp at hok
    · simp at hok

/-- Witness for C7, at the synthesis path with zeroed time and randomness. -/
theorem claim_C7_witness :
    ∃ bytes, uuidTryParse (uuidToString (nowV7 0 (fun _ => 0))) = some bytes ∧
      getVersionNum bytes = 7 :=
  claim_C7_every_ok_is_uuid_v7 none 0 (fun _ => 0) (uuidToString (nowV7 0 (fun _ => 0))) rfl

theorem toLowerByte_toLowerByte (b : Nat) :
    toLowerByte (toLowerByte b) = toLowerByte b := by
  simp only [toLowerByte]
  split_ifs <;> omega

theorem isWhitespaceByte_toLowerByte (b : Nat) :
    isWhitespaceByte (toLowerByte b) = isWhitespaceByte b := by
  simp only [toLowerByte]
  split_ifs with h
  · have h1 : isWhitespaceByte (b + 32) = false := by simp [isWhitespaceByte]; omega
    have h2 : isWhitespaceByte b = false := by simp [isWhitespaceByte]; omega
    rw [h1, h2]
  · rfl

theorem isVisibleAscii_toLowerByte (b : Nat) :
    isVisibleAscii (toLowerByte b) = isVisibleAscii b := by
  simp only [toLowerByte]
  split_ifs with h
  · have h1 : isVisibleAscii (b + 32) = true := by simp [isVisibleAscii]; omega
    have h2 : isVisibleAscii b = true := by simp [isVisibleAscii]; omega
    rw [h1, h2]
  · rfl

theorem ws_comp_toLower : isWhitespaceByte ∘ toLowerByte = isWhitespaceByte := by
  funext x
  exact isWhitespaceByte_toLowerByte x

theorem all_visible_map_toLower (l : List Nat) :
    (l.map toLowerByte).all isVisibleAscii = l.all isVisibleAscii := by
  rw [List.all_map]
  congr 1
  funext x
  exact isVisibleAscii_toLowerByte x

theorem dropWhile_ws_map_toLower (l : List Nat) :
    (l.map toLowerByte).dropWhile isWhitespaceByte
      = (l.dropWhile isWhitespaceByte).map toLowerByte := by
  rw [List.dropWhile_map, ws_comp_toLower]

theorem trim_map_toLower (l : List Nat) :
    trim (l.map toLowerByte) = (trim l).map toLowerByte := by
  unfold trim List.rdropWhile
  rw [dropWhile_ws_map_toLower, ← List.map_reverse, dropWhile_ws_map_toLower,
    ← List.map_reverse]

theorem normalize_map_toLower (l : List Nat) :
    normalize (l.map toLowerByte) = normalize l := by
  unfold normalize toLowercase
  rw [trim_map_toLower, List.map_map]
  congr 1
  funext x
  exact toLowerByte_toLowerByte x

theorem fromRequestParts_map_toLower (a b : List Nat) (m : Nat) (r : Fin 10 → Nat)
    (h : a.map toLowerByte = b.map toLowerByte) :
    fromRequestParts (some a) m r = fromRequestParts (some b) m r := by
  have hdec : a.all isVisibleAscii = b.all isVisibleAscii := by
    rw [← all_visible_map_toLower a, h, all_visible_map_toLower]
  have hnorm : normalize a = normalize b := by
    rw [← normalize_map_toLower a, h, normalize_map_toLower]
  simp only [fromRequestParts, hdec, hnorm]

/-- Claim C8: resolution is case-insensitive — any two present header values
whose letter-wise lower-casings agree resolve identically, and in particular
the upper- and lower-case spellings of the spec's example both resolve to
the lower-cased form. -/
theorem claim_C8_case_insensitive (a b : List Nat) (m : Nat) (r : Fin 10 → Nat)
    (h : a.map toLowerByte = b.map toLowerByte) :
    fromRequestParts (some a) m r = fromRequestParts (some b) m r ∧
    fromRequestParts (some (strBytes "01965864-F8AB-7EB8-912A-A2C999AB110E")) m r
      = Outcome.ok (strBytes "01965864-f8ab-7eb8-912a-a2c999ab110e") ∧
    fromRequestParts (some (strBytes "01965864-f8ab-7eb8-912a-a2c999ab110e")) m r
      = Outcome.ok (strBytes "01965864-f8ab-7eb8-912a-a2c999ab110e") := by
  refine ⟨fromRequestParts_map_toLower a b m r h, rfl, rfl⟩

/-- Witness for C8, at the spec's example pair of header values. -/
theorem claim_C8_witness :
    fromRequestParts (some (strBytes "01965864-F8AB-7EB8-912A-A2C999AB110E")) 0 (fun _ => 0)
      = fromRequestParts (some (strBytes "01965864-f8ab-7eb8-912a-a2c999ab110e")) 0 (fun _ => 0) ∧
    fromRequestParts (some (strBytes "01965864-F8AB-7EB8-912A-A2C999AB110E")) 0 (fun _ => 0)
      = Outcome.ok (strBytes "01965864-f8ab-7eb8-912a-a2c999ab110e") ∧
    fromRequestParts (some (strBytes "01965864-f8ab-7eb8-912a-a2c999ab110e")) 0 (fun _ => 0)
      = Outcome.ok (strBytes "01965864-f8ab-7eb8-912a-a2c999ab110e") :=
  claim_C8_case_insensitive (strBytes "01965864-F8AB-7EB8-912A-A2C999AB110E")
    (strBytes "01965864-f8ab-7eb8-912a-a2c999ab110e") 0 (fun _ => 0) (by decide)

theorem dropWhile_eq_self_of_head (p : Nat → Bool) (l : List Nat)
    (h : ∀ x, l.head? = some x → p x = false) : l.dropWhile p = l := by
  cases l with
  | nil => rfl
  | cons a t =>
    have := h a rfl
    simp [List.dropWhile_cons, this]

theorem head_false_of_dropWhile_eq_self (p : Nat → Bool) (l : List Nat)
    (h : l.dropWhile p = l) : ∀ x, l.head? = some x → p x = false := by
  intro x hx
  cases l with
  | nil => cases hx
  | cons a t =>
    simp only [List.head?_cons, Option.some.injEq] at hx
    subst hx
    cases hpa : p a
    · rfl
    · rw [List.dropWhile_cons_of_pos hpa] at h
      have hle := (List.dropWhile_sublist (l := t) p).length_le
      rw [h] at hle
      simp at hle

theorem dropWhile_rdropWhile_of_eq_self (p : Nat → Bool) (l : List Nat)
    (h : l.dropWhile p = l) :
    (l.rdropWhile p).dropWhile p = l.rdropWhile p := by
  apply dropWhile_eq_self_of_head
  intro x hx
  obtain ⟨t, ht⟩ := List.rdropWhile_prefix p l
  have hl : l.head? = some x := by
    rw [← ht]
    cases hrd : l.rdropWhile p with
    | nil => rw [hrd] at hx; cases hx
    | cons a u =>
      rw [hrd] at hx
      simp only [List.head?_cons, Option.some.injEq] at hx
      subst hx
      rfl
  exact head_false_of_dropWhile_eq_self p l h x hl

theorem trim_trim (s : List Nat) : trim (trim s) = trim s := by
  unfold trim
  rw [dropWhile_rdropWhile_of_eq_self _ _ (List.dropWhile_idempotent _ _),
    List.rdropWhile_idempotent]

theorem normalize_normalize (s : List Nat) : normalize (normalize s) = normalize s := by
  unfold normalize toLowercase
  rw [trim_map_toLower, trim_trim, List.map_map]
  congr 1
  funext x
  exact toLowerByte_toLowerByte x

/-- Claim C9: the normalization step is idempotent — re-normalizing a
normalized string is a no-op — and resolving an already-normalized valid
candidate returns that very string. -/
theorem claim_C9_normalization_idempotent (t s parsed : List Nat) (m : Nat)
    (r : Fin 10 → Nat)
    (htrim : trim s = s) (hlower : toLowercase s = s)
    (hdec : s.all isVisibleAscii = true)
    (hparse : uuidTryParse s = some parsed)
    (hver : getVersionNum parsed = 7) :
    normalize (normalize t) = normalize t ∧
    normalize s = s ∧
    fromRequestParts (some s) m r = Outcome.ok s := by
  have hnorm : normalize s = s := by
    unfold normalize
    rw [htrim, hlower]
  refine ⟨normalize_normalize t, hnorm, ?_⟩
  have he := fromRequestParts_echo s parsed m r hdec (by rw [hnorm]; exact hparse) hver
  rw [hnorm] at he
  exact he

/-- Witness for C9, at a string with blanks and capitals and at the spec's
already-normalized valid v7 candidate. -/
theorem claim_C9_witness :
    (trim (strBytes "01965864-f8ab-7eb8-912a-a2c999ab110e")
        = strBytes "01965864-f8ab-7eb8-912a-a2c999ab110e" ∧
      toLowercase (strBytes "01965864-f8ab-7eb8-912a-a2c999ab110e")
        = strBytes "01965864-f8ab-7eb8-912a-a2c999ab110e") ∧
    normalize (normalize (strBytes "  Ab C  ")) = normalize (strBytes "  Ab C  ") ∧
    normalize (strBytes "01965864-f8ab-7eb8-912a-a2c999ab110e")
      = strBytes "01965864-f8ab-7eb8-912a-a2c999ab110e" ∧
    fromRequestParts (some (strBytes "01965864-f8ab-7eb8-912a-a2c999ab110e")) 0 (fun _ => 0)
      = Outcome.ok (strBytes "01965864-f8ab-7eb8-912a-a2c999ab110e") := by
  refine ⟨⟨by decide, by decide⟩, ?_⟩
  exact claim_C9_normalization_idempotent (strBytes "  Ab C  ")
    (strBytes "01965864-f8ab-7eb8-912a-a2c999ab110e")
    [1, 150, 88, 100, 248, 171, 126, 184, 145, 42, 162, 201, 153, 171, 17, 14]
    0 (fun _ => 0) (by decide) (by decide) (by decide) (by decide) (by decide)

theorem headersGet_append_first (n v : List Nat) (pre post : List (List Nat × List Nat))
    (hn : headerNameMatches n HEADER_X_REQUEST_ID = true)
    (hpre : ∀ p ∈ pre, headerNameMatches p.1 HEADER_X_REQUEST_ID = false) :
    headersGet (pre ++ (n, v) :: post) HEADER_X_REQUEST_ID = some v := by
  induction pre with
  | nil =>
    simp only [List.nil_append, headersGet, List.find?_cons, hn]
    rfl
  | cons q qs ih =>
    have hq := hpre q (by simp)
    simp only [List.cons_append, headersGet, List.find?_cons, hq] at ih ⊢
    exact ih (fun p hp => hpre p (by simp [hp]))

/-- Claim C10: when several `X-Request-Id` headers are present, only the
first value determines the outcome; whatever follows it is ignored. -/
theorem claim_C10_first_header_wins (n v : List Nat)
    (pre post : List (List Nat × List Nat)) (m : Nat) (r : Fin 10 → Nat)
    (hn : headerNameMatches n HEADER_X_REQUEST_ID = true)
    (hpre : ∀ p ∈ pre, headerNameMatches p.1 HEADER_X_REQUEST_ID = false) :
    extractRequestId (pre ++ (n, v) :: post) m r = fromRequestParts (some v) m r := by
  unfold extractRequestId
  rw [headersGet_append_first n v pre post hn hpre]

/-- Witness for C10: a later bogus `X-Request-Id` value does not disturb
the first one. -/
theorem claim_C10_witness :
    extractRequestId [(strBytes "content-type", strBytes "text"),
        (strBytes "x-request-id", strBytes "01965864-f8ab-7eb8-912a-a2c999ab110e"),
        (strBytes "X-Request-Id", strBytes "this-is-not-a-uuid")] 0 (fun _ => 0)
      = fromRequestParts (some (strBytes "01965864-f8ab-7eb8-912a-a2c999ab110e"))
          0 (fun _ => 0) :=
  claim_C10_first_header_wins (strBytes "x-request-id")
    (strBytes "01965864-f8ab-7eb8-912a-a2c999ab110e")
    [(strBytes "content-type", strBytes "text")]
    [(strBytes "X-Request-Id", strBytes "this-is-not-a-uuid")] 0 (fun _ => 0)
    (by decide) (by decide)

end RequestIdMiddleware
